import Mathlib

/-!
Verification of the person re-identification application.

The development shallowly embeds the bounding-box variant of the flow in
src/src/ai/flows/re-identify-person.ts (the second document in that file,
lines 190-420) and the client frame-extraction pipeline in
src/unnamed/part_002 (extractFrame, lines 136-256, and extractSnapshots,
lines 259-365).  JavaScript numbers are modelled as rationals, fallible
steps as Except, optional fields as Option, and the event-driven browser
code as an explicit step machine over event traces.
-/

namespace ReId

/-- Normalized bounding box, from BoundingBoxSchema
(re-identify-person.ts lines 218-224): four rational coordinates. -/
structure BoundingBox where
  xMin : ℚ
  yMin : ℚ
  xMax : ℚ
  yMax : ℚ
deriving DecidableEq

/-- One identification, from IdentificationResultSchema
(re-identify-person.ts lines 227-231): a timestamp and an optional box. -/
structure IdentificationResult where
  timestamp : ℚ
  boundingBox : Option BoundingBox
deriving DecidableEq

/-- Output schema of the flow, from ReIdentifyPersonOutputSchema
(re-identify-person.ts lines 234-241).  The identifications field is
optional there, hence Option here. -/
structure ReIdentifyPersonOutput where
  isPresent : Bool
  confidence : Option ℚ
  reason : String
  identifications : Option (List IdentificationResult)
deriving DecidableEq

/-- Input schema, from ReIdentifyPersonInputSchema
(re-identify-person.ts lines 203-215). -/
structure ReIdentifyPersonInput where
  photoDataUri : String
  videoDataUri : String
deriving DecidableEq

/-- Drops every character up to and including the first comma, and drops
nothing when no comma occurs: this is the JavaScript idiom
s.substring(s.indexOf(",") + 1), where indexOf returns -1 when the comma
is absent (re-identify-person.ts line 330). -/
def stripThroughFirstComma (s : List Char) : List Char :=
  if ',' ∈ s then (s.dropWhile (fun c => c ≠ ',')).tail else s

/-- Math.min on rationals (NaN is outside the model): the smaller
argument. Written with an if so that it evaluates by kernel reduction. -/
def ratMin (a b : ℚ) : ℚ := if a ≤ b then a else b

/-- Math.max on rationals: the larger argument. -/
def ratMax (a b : ℚ) : ℚ := if a ≤ b then b else a

theorem ratMin_eq_min (a b : ℚ) : ratMin a b = min a b := (min_def a b).symm

theorem ratMax_eq_max (a b : ℚ) : ratMax a b = max a b := (max_def a b).symm

/-- Embeds estimateVideoDuration (re-identify-person.ts lines 325-339):
strip the data-URI header, estimate decoded bytes as length * 0.75,
divide by an assumed bitrate of 0.5 MB/s, clamp to [1, 120]. -/
def estimateVideoDuration (videoDataUri : String) : ℚ :=
  let base64Data := stripThroughFirstComma videoDataUri.data
  let bytes : ℚ := (base64Data.length : ℚ) * (3 / 4)
  let estimatedDuration : ℚ := bytes / ((1 / 2) * 1024 * 1024)
  ratMax 1 (ratMin estimatedDuration 120)

/-- The disjunction under which the flow discards a bounding box
(re-identify-person.ts lines 378-380). -/
def boundingBoxInvalid (bb : BoundingBox) : Prop :=
  bb.xMin < 0 ∨ bb.xMin > 1 ∨ bb.yMin < 0 ∨ bb.yMin > 1 ∨
  bb.xMax < 0 ∨ bb.xMax > 1 ∨ bb.yMax < 0 ∨ bb.yMax > 1 ∨
  bb.xMin ≥ bb.xMax ∨ bb.yMin ≥ bb.yMax

instance : DecidablePred boundingBoxInvalid := fun bb => by
  unfold boundingBoxInvalid; infer_instance

/-- The map body of the validation step (re-identify-person.ts lines
374-388): an identification with an invalid box is replaced by one with
the same timestamp and no box; otherwise it is returned as is. -/
def sanitizeIdentification (id : IdentificationResult) : IdentificationResult :=
  match id.boundingBox with
  | some bb =>
      if boundingBoxInvalid bb then
        { timestamp := id.timestamp, boundingBox := none }
      else id
  | none => id

/-- Ordering used by the sort comparator (a, b) => a.timestamp - b.timestamp
(re-identify-person.ts line 389). -/
def byTimestamp (a b : IdentificationResult) : Prop :=
  a.timestamp ≤ b.timestamp

instance : DecidableRel byTimestamp := fun a b => by
  unfold byTimestamp; infer_instance

instance : IsTotal IdentificationResult byTimestamp :=
  ⟨fun a b => le_total a.timestamp b.timestamp⟩

instance : IsTrans IdentificationResult byTimestamp :=
  ⟨fun _ _ _ h h' => le_trans h h'⟩

/-- The validation chain applied to a model-returned identifications array
(re-identify-person.ts lines 372-389): filter timestamps to
[0, videoDuration], strip invalid boxes, sort by timestamp.  The sort is
modelled by the stable insertionSort, matching the stable JavaScript
Array.prototype.sort. -/
def processIdentifications (videoDuration : ℚ)
    (ids : List IdentificationResult) : List IdentificationResult :=
  ((ids.filter
      (fun id => decide (0 ≤ id.timestamp ∧ id.timestamp ≤ videoDuration))).map
    sanitizeIdentification).insertionSort byTimestamp

/-- The message of the error thrown when the model adapter produced no
parseable output (re-identify-person.ts line 367). -/
def noOutputMessage : String := "LLM analysis failed to produce an output."

/-- Embeds reIdentifyPersonFlow (re-identify-person.ts lines 342-401).
The result of the model-adapter call is an explicit parameter: an
exception carrying a message, or a response whose output field may be
absent.  The flow throws when the output is absent (line 367), otherwise
validates the identifications (lines 371-395), defaulting an absent
identifications field to the empty array (line 394). -/
def reIdentifyPersonFlow (input : ReIdentifyPersonInput)
    (promptResult : Except String (Option ReIdentifyPersonOutput)) :
    Except String ReIdentifyPersonOutput :=
  let videoDuration := estimateVideoDuration input.videoDataUri
  match promptResult with
  | .error e => .error e
  | .ok none => .error noOutputMessage
  | .ok (some llmOutput) =>
      match llmOutput.identifications with
      | some ids =>
          .ok { llmOutput with
                identifications := some (processIdentifications videoDuration ids) }
      | none => .ok { llmOutput with identifications := some [] }

/-- Prefix of the degraded reason string (re-identify-person.ts line 416). -/
def errorReasonPrefix : String := "An error occurred during processing: "

/-- Embeds the public entry point reIdentifyPerson (re-identify-person.ts
lines 404-420): returns the flow result, and converts any flow error into
a normal-shaped verdict with isPresent false, a reason embedding the error
message, and empty identifications. -/
def reIdentifyPerson (input : ReIdentifyPersonInput)
    (promptResult : Except String (Option ReIdentifyPersonOutput)) :
    ReIdentifyPersonOutput :=
  match reIdentifyPersonFlow input promptResult with
  | .ok result => result
  | .error e =>
      { isPresent := false
        confidence := none
        reason := errorReasonPrefix ++ e
        identifications := some [] }

/-! ### Helper lemmas about the flow -/

theorem sanitizeIdentification_timestamp (id : IdentificationResult) :
    (sanitizeIdentification id).timestamp = id.timestamp := by
  unfold sanitizeIdentification
  cases h : id.boundingBox with
  | none => rfl
  | some bb => by_cases hb : boundingBoxInvalid bb <;> simp [hb]

theorem mem_processIdentifications {d : ℚ} {ids : List IdentificationResult}
    {id : IdentificationResult} :
    id ∈ processIdentifications d ids ↔
      id ∈ (ids.filter
          (fun i => decide (0 ≤ i.timestamp ∧ i.timestamp ≤ d))).map
        sanitizeIdentification := by
  unfold processIdentifications
  exact (List.perm_insertionSort byTimestamp _).mem_iff

/-- Every verdict the entry point returns carries an explicit
identifications list: empty, or the processed form of a model reply. -/
theorem reIdentifyPerson_identifications_cases
    (input : ReIdentifyPersonInput)
    (pr : Except String (Option ReIdentifyPersonOutput)) :
    (reIdentifyPerson input pr).identifications = some [] ∨
    ∃ o ids, pr = .ok (some o) ∧ o.identifications = some ids ∧
      (reIdentifyPerson input pr).identifications =
        some (processIdentifications (estimateVideoDuration input.videoDataUri) ids) := by
  cases pr with
  | error e => left; rfl
  | ok o =>
      cases o with
      | none => left; rfl
      | some llm =>
          cases h : llm.identifications with
          | none =>
              left
              simp [reIdentifyPerson, reIdentifyPersonFlow, h]
          | some ids =>
              right
              exact ⟨llm, ids, rfl, h, by simp [reIdentifyPerson, reIdentifyPersonFlow, h]⟩

/-! ### Claim theorems for the flow -/

/-- C9: the duration estimator computes
max(1, min(L * 0.75 / (0.5 * 1024 * 1024), 120)) where L is the length of
the input after the header up to and including the first comma is
stripped, its value always lies in [1, 120], and the 0-byte payload
"data:video/mp4;base64," yields exactly 1 second. -/
theorem estimateVideoDuration_contract :
    (∀ s : String,
        estimateVideoDuration s =
          max 1 (min (((stripThroughFirstComma s.data).length : ℚ) * 0.75 /
              (0.5 * 1024 * 1024)) 120) ∧
        1 ≤ estimateVideoDuration s ∧ estimateVideoDuration s ≤ 120) ∧
    estimateVideoDuration "data:video/mp4;base64," = 1 := by
  constructor
  · intro s
    have hu : estimateVideoDuration s =
        max 1 (min (((stripThroughFirstComma s.data).length : ℚ) * (3 / 4) /
            ((1 / 2) * 1024 * 1024)) 120) := by
      simp only [estimateVideoDuration, ratMin_eq_min, ratMax_eq_max]
    refine ⟨?_, ?_, ?_⟩
    · rw [hu]; norm_num
    · rw [hu]; exact le_max_left 1 _
    · rw [hu]; exact max_le (by norm_num) (min_le_right _ 120)
  · have h : stripThroughFirstComma ("data:video/mp4;base64,".data) = [] := by decide
    simp only [estimateVideoDuration, h]
    norm_num [ratMin, ratMax]

/-- C1: the public entry point never throws; whenever the underlying flow
fails with message e (including the model adapter producing no parseable
output), it returns a normal-shaped verdict with isPresent false, a reason
embedding e, and empty identifications. -/
theorem reIdentifyPerson_error_contract
    (input : ReIdentifyPersonInput)
    (pr : Except String (Option ReIdentifyPersonOutput))
    (e : String)
    (h : reIdentifyPersonFlow input pr = .error e) :
    reIdentifyPerson input pr =
      { isPresent := false
        confidence := none
        reason := errorReasonPrefix ++ e
        identifications := some [] } := by
  unfold reIdentifyPerson
  rw [h]

/-- Sample input used to instantiate the claim theorems. -/
def inp0 : ReIdentifyPersonInput :=
  { photoDataUri := "photo", videoDataUri := "video" }

theorem reIdentifyPerson_error_contract_witness :
    reIdentifyPerson inp0 (.ok none) =
      { isPresent := false
        confidence := none
        reason := errorReasonPrefix ++ noOutputMessage
        identifications := some [] } :=
  reIdentifyPerson_error_contract inp0 (.ok none) noOutputMessage rfl

/-- The estimator applied to the sample video reference "video" (no
comma, five characters): the tiny byte estimate clamps up to 1 second. -/
theorem estimateVideoDuration_video : estimateVideoDuration "video" = 1 := by
  have h : stripThroughFirstComma ("video".data) = "video".data := by decide
  have h5 : (("video".data).length : ℚ) = 5 := by decide
  simp only [estimateVideoDuration, h, h5]
  norm_num [ratMin, ratMax]

/-- A model reply that reports the person absent yet still carries an
in-range identification. -/
def absentWithIds : ReIdentifyPersonOutput :=
  { isPresent := false
    confidence := none
    reason := "No match"
    identifications := some [{ timestamp := 0, boundingBox := none }] }

/-- C3 counterexample: the flow does not empty identifications when
isPresent is false.  At the concrete input below the returned verdict has
isPresent false and a nonempty identifications list. -/
theorem reIdentifyPerson_absent_nonempty_counterexample :
    (reIdentifyPerson inp0 (.ok (some absentWithIds))).isPresent = false ∧
    (reIdentifyPerson inp0 (.ok (some absentWithIds))).identifications ≠ some [] := by
  have hd : estimateVideoDuration inp0.videoDataUri = 1 := estimateVideoDuration_video
  have hp : processIdentifications (estimateVideoDuration inp0.videoDataUri)
      [{ timestamp := 0, boundingBox := none }] =
      [{ timestamp := 0, boundingBox := none }] := by
    rw [hd]
    norm_num [processIdentifications, List.filter_cons, sanitizeIdentification,
      List.insertionSort, List.orderedInsert]
  constructor
  · simp [reIdentifyPerson, reIdentifyPersonFlow, absentWithIds]
  · simp [reIdentifyPerson, reIdentifyPersonFlow, absentWithIds, hp]

/-- C3 amended: the flow normalizes an absent identifications field to the
empty list, and the degraded error verdict of the entry point carries the
empty list; but a verdict with isPresent false may keep nonempty
identifications when the model supplied them. -/
theorem reIdentifyPerson_identifications_normalization :
    (∀ (input : ReIdentifyPersonInput) (o : ReIdentifyPersonOutput),
        o.identifications = none →
        reIdentifyPersonFlow input (.ok (some o)) =
          .ok { o with identifications := some [] }) ∧
    (∀ (input : ReIdentifyPersonInput)
        (pr : Except String (Option ReIdentifyPersonOutput)) (e : String),
        reIdentifyPersonFlow input pr = .error e →
        (reIdentifyPerson input pr).identifications = some []) := by
  constructor
  · intro input o h
    simp [reIdentifyPersonFlow, h]
  · intro input pr e h
    unfold reIdentifyPerson
    rw [h]

/-- A model reply with no identifications field. -/
def absentNoIds : ReIdentifyPersonOutput :=
  { isPresent := false
    confidence := none
    reason := "No match"
    identifications := none }

theorem reIdentifyPerson_identifications_normalization_witness :
    reIdentifyPersonFlow inp0 (.ok (some absentNoIds)) =
      .ok { absentNoIds with identifications := some [] } :=
  reIdentifyPerson_identifications_normalization.1 inp0 absentNoIds rfl

/-- A model reply with two identifications sharing one timestamp. -/
def dupOutput : ReIdentifyPersonOutput :=
  { isPresent := true
    confidence := none
    reason := "seen"
    identifications := some
      [{ timestamp := 1, boundingBox := none },
       { timestamp := 1, boundingBox := none }] }

/-- C4 counterexample: the orchestration step sorts but does not
deduplicate.  At the concrete input below both identifications with
timestamp 1 survive, so two identifications share a timestamp. -/
theorem reIdentifyPerson_duplicate_timestamps_counterexample :
    ((reIdentifyPerson inp0 (.ok (some dupOutput))).identifications.getD []).map
        IdentificationResult.timestamp = [1, 1] ∧
    ¬ ([1, 1] : List ℚ).Pairwise (fun a b => a ≠ b) := by
  have hd : estimateVideoDuration inp0.videoDataUri = 1 := estimateVideoDuration_video
  have hp : processIdentifications (estimateVideoDuration inp0.videoDataUri)
      [{ timestamp := 1, boundingBox := none },
       { timestamp := 1, boundingBox := none }] =
      [{ timestamp := 1, boundingBox := none },
       { timestamp := 1, boundingBox := none }] := by
    rw [hd]
    norm_num [processIdentifications, List.filter_cons, sanitizeIdentification,
      List.insertionSort, List.orderedInsert, byTimestamp]
  constructor
  · simp [reIdentifyPerson, reIdentifyPersonFlow, dupOutput, hp]
  · simp

/-- C4 amended: every verdict the entry point returns carries an explicit
identifications list sorted ascending by timestamp (non-strictly:
duplicate timestamps are preserved, not removed). -/
theorem reIdentifyPerson_timestamps_sorted :
    ∀ (input : ReIdentifyPersonInput)
      (pr : Except String (Option ReIdentifyPersonOutput)),
      ∃ l, (reIdentifyPerson input pr).identifications = some l ∧
        List.Sorted byTimestamp l := by
  intro input pr
  rcases reIdentifyPerson_identifications_cases input pr with h | ⟨o, ids, _, _, h⟩
  · exact ⟨[], h, List.sorted_nil⟩
  · exact ⟨_, h, List.sorted_insertionSort byTimestamp _⟩

theorem sanitizeIdentification_eq_self {id : IdentificationResult}
    (h : ∀ bb, id.boundingBox = some bb → ¬ boundingBoxInvalid bb) :
    sanitizeIdentification id = id := by
  unfold sanitizeIdentification
  cases hb : id.boundingBox with
  | none => rfl
  | some bb => simp [h bb hb]

/-- C5: every identification in a returned verdict has a timestamp in
[0, videoDuration] for the duration estimated for that request, and a
model identification with an in-range timestamp and no invalid box is
kept in the output with its bounding box intact. -/
theorem reIdentifyPerson_timestamps_in_range :
    (∀ (input : ReIdentifyPersonInput)
       (pr : Except String (Option ReIdentifyPersonOutput))
       (id : IdentificationResult),
       id ∈ ((reIdentifyPerson input pr).identifications.getD []) →
       0 ≤ id.timestamp ∧ id.timestamp ≤ estimateVideoDuration input.videoDataUri) ∧
    (∀ (input : ReIdentifyPersonInput) (o : ReIdentifyPersonOutput)
       (l : List IdentificationResult) (id : IdentificationResult),
       o.identifications = some l → id ∈ l →
       0 ≤ id.timestamp →
       id.timestamp ≤ estimateVideoDuration input.videoDataUri →
       (∀ bb, id.boundingBox = some bb → ¬ boundingBoxInvalid bb) →
       ∃ l2, (reIdentifyPerson input (.ok (some o))).identifications = some l2 ∧
         id ∈ l2) := by
  constructor
  · intro input pr id hmem
    rcases reIdentifyPerson_identifications_cases input pr with h | ⟨o, ids, _, _, h⟩
    · rw [h] at hmem; simp at hmem
    · rw [h] at hmem
      simp only [Option.getD_some] at hmem
      rw [mem_processIdentifications] at hmem
      rcases List.mem_map.mp hmem with ⟨a, ha, hsan⟩
      rcases List.mem_filter.mp ha with ⟨_, hdec⟩
      have hbounds := of_decide_eq_true hdec
      rw [← hsan, sanitizeIdentification_timestamp]
      exact hbounds
  · intro input o l id ho hl h0 hdur hbox
    have hres : (reIdentifyPerson input (.ok (some o))).identifications
        = some (processIdentifications (estimateVideoDuration input.videoDataUri) l) := by
      simp [reIdentifyPerson, reIdentifyPersonFlow, ho]
    refine ⟨_, hres, ?_⟩
    rw [mem_processIdentifications]
    have hs : sanitizeIdentification id = id := sanitizeIdentification_eq_self hbox
    rw [← hs]
    exact List.mem_map_of_mem _
      (List.mem_filter.mpr ⟨hl, decide_eq_true ⟨h0, hdur⟩⟩)

/-- A valid bounding box from scenario C of the specification. -/
def goodBox : BoundingBox :=
  { xMin := 1 / 10, yMin := 1 / 10, xMax := 9 / 10, yMax := 9 / 10 }

/-- A model reply with one in-range identification carrying a valid box. -/
def presentOutput : ReIdentifyPersonOutput :=
  { isPresent := true
    confidence := some (85 / 100)
    reason := "seen"
    identifications := some [{ timestamp := 1, boundingBox := some goodBox }] }

theorem reIdentifyPerson_timestamps_in_range_witness :
    0 ≤ ({ timestamp := 1, boundingBox := some goodBox } :
        IdentificationResult).timestamp ∧
    ({ timestamp := 1, boundingBox := some goodBox } :
        IdentificationResult).timestamp ≤
      estimateVideoDuration inp0.videoDataUri :=
  reIdentifyPerson_timestamps_in_range.1 inp0 (.ok (some presentOutput))
    { timestamp := 1, boundingBox := some goodBox } (by
      have hd : estimateVideoDuration inp0.videoDataUri = 1 :=
        estimateVideoDuration_video
      have hp : processIdentifications (estimateVideoDuration inp0.videoDataUri)
          [{ timestamp := 1, boundingBox := some goodBox }] =
          [{ timestamp := 1, boundingBox := some goodBox }] := by
        rw [hd]
        norm_num [processIdentifications, List.filter_cons, sanitizeIdentification,
          boundingBoxInvalid, goodBox, List.insertionSort, List.orderedInsert]
      simp [reIdentifyPerson, reIdentifyPersonFlow, presentOutput, hp])

/-- C6: every bounding box retained in a returned verdict satisfies
0 ≤ xMin < xMax ≤ 1 and 0 ≤ yMin < yMax ≤ 1, and a model identification
with an in-range timestamp and a violating box is kept with its timestamp
and without the box. -/
theorem reIdentifyPerson_boxes_valid :
    (∀ (input : ReIdentifyPersonInput)
       (pr : Except String (Option ReIdentifyPersonOutput))
       (id : IdentificationResult) (bb : BoundingBox),
       id ∈ ((reIdentifyPerson input pr).identifications.getD []) →
       id.boundingBox = some bb →
       0 ≤ bb.xMin ∧ bb.xMin < bb.xMax ∧ bb.xMax ≤ 1 ∧
       0 ≤ bb.yMin ∧ bb.yMin < bb.yMax ∧ bb.yMax ≤ 1) ∧
    (∀ (input : ReIdentifyPersonInput) (o : ReIdentifyPersonOutput)
       (l : List IdentificationResult) (id : IdentificationResult)
       (bb : BoundingBox),
       o.identifications = some l → id ∈ l →
       id.boundingBox = some bb → boundingBoxInvalid bb →
       0 ≤ id.timestamp →
       id.timestamp ≤ estimateVideoDuration input.videoDataUri →
       ∃ l2, (reIdentifyPerson input (.ok (some o))).identifications = some l2 ∧
         ({ timestamp := id.timestamp, boundingBox := none } :
             IdentificationResult) ∈ l2) := by
  constructor
  · intro input pr id bb hmem hbb
    rcases reIdentifyPerson_identifications_cases input pr with h | ⟨o, ids, _, _, h⟩
    · rw [h] at hmem; simp at hmem
    · rw [h] at hmem
      simp only [Option.getD_some] at hmem
      rw [mem_processIdentifications] at hmem
      rcases List.mem_map.mp hmem with ⟨a, _, hsan⟩
      cases hb : a.boundingBox with
      | none =>
          simp only [sanitizeIdentification, hb] at hsan
          rw [← hsan] at hbb
          rw [hb] at hbb
          simp at hbb
      | some bb0 =>
          simp only [sanitizeIdentification, hb] at hsan
          by_cases hinv : boundingBoxInvalid bb0
          · rw [if_pos hinv] at hsan
            rw [← hsan] at hbb
            simp at hbb
          · rw [if_neg hinv] at hsan
            have hbb0 : bb0 = bb := by
              rw [hsan] at hb
              rw [hb] at hbb
              exact Option.some_injective _ hbb
            unfold boundingBoxInvalid at hinv
            push_neg at hinv
            obtain ⟨h1, _, h3, _, _, h6, _, h8, h9, h10⟩ := hinv
            subst hbb0
            exact ⟨h1, h9, h6, h3, h10, h8⟩
  · intro input o l id bb ho hl hbb hinv h0 hdur
    have hres : (reIdentifyPerson input (.ok (some o))).identifications
        = some (processIdentifications (estimateVideoDuration input.videoDataUri) l) := by
      simp [reIdentifyPerson, reIdentifyPersonFlow, ho]
    refine ⟨_, hres, ?_⟩
    rw [mem_processIdentifications]
    have hs : sanitizeIdentification id =
        { timestamp := id.timestamp, boundingBox := none } := by
      simp only [sanitizeIdentification, hbb]
      rw [if_pos hinv]
    rw [← hs]
    exact List.mem_map_of_mem _
      (List.mem_filter.mpr ⟨hl, decide_eq_true ⟨h0, hdur⟩⟩)

/-- An invalid bounding box: its xMin exceeds 1 and exceeds its xMax. -/
def badBox : BoundingBox := { xMin := 2, yMin := 0, xMax := 3, yMax := 1 }

/-- A model reply with one in-range identification carrying an invalid box. -/
def presentBadBox : ReIdentifyPersonOutput :=
  { isPresent := true
    confidence := none
    reason := "seen"
    identifications := some [{ timestamp := 1, boundingBox := some badBox }] }

theorem reIdentifyPerson_boxes_valid_witness :
    ∃ l2, (reIdentifyPerson inp0 (.ok (some presentBadBox))).identifications
        = some l2 ∧
      ({ timestamp := 1, boundingBox := none } : IdentificationResult) ∈ l2 :=
  reIdentifyPerson_boxes_valid.2 inp0 presentBadBox
    [{ timestamp := 1, boundingBox := some badBox }]
    { timestamp := 1, boundingBox := some badBox } badBox rfl (by simp) rfl
    (by norm_num [boundingBoxInvalid, badBox]) (by norm_num)
    (by show (1 : ℚ) ≤ estimateVideoDuration "video"
        rw [estimateVideoDuration_video])

/-! ### Client frame-extraction pipeline (src/unnamed/part_002)

extractFrame (lines 136-256) is event-driven: it registers a seeked
listener and an error listener (both once-only), sets currentTime, and
arms a 3-second timeout; the seeked handler may arm one 150ms retry when
the video dimensions are not yet available.  The browser event loop runs
these callbacks sequentially in some order.  The model makes the order an
explicit trace of events and each callback a step function on a state
recording the resolved flag, the resolved snapshot, how many times
resolve was called, which listeners are still attached, and whether the
retry is armed. -/

/-- The placeholder image constant (part_002 line 19). -/
def placeholderDataUri : String :=
  "data:image/png;base64,iVBORw0KGgoAAAANSUhEUgAAAEAAAABACAAAAACgtt2+AAAAAXNSR0IArs4c6QAAAARnQU1BAACxjwv8YQUAAAAJcEhZcwAADsMAAA7DAcdvqGQAAABDSURBVDhPY2AYYAAGEgYGDAlQw/z//z/DwsKCMjIyAAAA///fVAGIYvj7+4eFhQUAAAAA///vrgQ0MDBgfHx8AADsHBFsXnVsmwAAAABJRU5ErkJggg=="

/-- Values of the generationStatus field of SnapshotSchema
(re-identify-person.ts line 248). -/
inductive GenerationStatus
  | extracted
  | failed
  | placeholder
deriving DecidableEq

/-- A snapshot, from SnapshotSchema (re-identify-person.ts lines 245-250):
timestamp, image data URI, optional status, optional carried box. -/
structure Snapshot where
  timestamp : ℚ
  dataUri : String
  generationStatus : Option GenerationStatus
  boundingBox : Option BoundingBox
deriving DecidableEq

/-- The snapshot every failure path of extractFrame resolves with
(part_002 lines 143, 151, 186, 211, 218, 233, 251). -/
def failedSnapshot (id : IdentificationResult) : Snapshot :=
  { timestamp := id.timestamp
    dataUri := placeholderDataUri
    generationStatus := some GenerationStatus.failed
    boundingBox := id.boundingBox }

/-- Environment of one draw-and-encode attempt: whether videoWidth and
videoHeight are positive at that moment, and what each toDataURL call
would yield (none models a throw). -/
structure DrawEnv where
  dims : Bool
  jpeg : Option String
  png : Option String
deriving DecidableEq

/-- canvas.toDataURL with JPEG first and PNG fallback when the JPEG
result is falsy or "data:," (part_002 lines 171-176 and 201-202); none
models the call throwing. -/
def encodeDataUri (env : DrawEnv) : Option String :=
  match env.jpeg with
  | none => none
  | some j => if j = "" ∨ j = "data:," then env.png else some j

/-- The callbacks the browser may run for one extractFrame call: the
seeked listener, the error listener, the 150ms dimension-retry callback,
and the 3s timeout callback. -/
inductive FrameEvent
  | seeked
  | errorEvt
  | innerRetry
  | outerTimeout
deriving DecidableEq

/-- Environment of one extractFrame call: canvas ref and 2d context
availability, the draw environments of the seeked attempt and of the
retry attempt, and the order in which the armed callbacks fire. -/
structure FrameEnv where
  canvas : Bool
  context : Bool
  seekedEnv : DrawEnv
  retryEnv : DrawEnv
  trace : List FrameEvent

/-- Mutable state of one extractFrame call. -/
structure FrameState where
  resolved : Bool
  result : Option Snapshot
  resolveCount : ℕ
  seekedAttached : Bool
  errorAttached : Bool
  retryScheduled : Bool
deriving DecidableEq

/-- Calling the promise resolver: sets the resolved flag, records the
snapshot (a second call would be ignored by the promise, hence the match
on the previous result), counts the call. -/
def FrameState.resolve (s : FrameState) (snap : Snapshot) : FrameState :=
  { s with
    resolved := true
    result := match s.result with
              | some r => some r
              | none => some snap
    resolveCount := s.resolveCount + 1 }

/-- The body run when dimensions are available: draw the frame, encode
it, resolve with an extracted snapshot, or with the failed placeholder
when encoding throws (part_002 lines 162-188 and 194-213). -/
def drawAttempt (id : IdentificationResult) (env : DrawEnv)
    (s : FrameState) : FrameState :=
  match encodeDataUri env with
  | some d =>
      s.resolve
        { timestamp := id.timestamp
          dataUri := d
          generationStatus := some GenerationStatus.extracted
          boundingBox := id.boundingBox }
  | none => s.resolve (failedSnapshot id)

/-- One callback run of extractFrame (part_002 lines 158-253).  The
seeked and error listeners are once-only; a listener detached by the
outer timeout no longer runs; every resolver is guarded by the resolved
flag; the seeked handler arms the retry instead of resolving when
dimensions are missing; the retry resolves failed when they are still
missing; the outer timeout detaches both listeners and resolves failed. -/
def stepFrame (id : IdentificationResult) (fe : FrameEnv)
    (s : FrameState) : FrameEvent → FrameState
  | .seeked =>
      if s.seekedAttached then
        let s1 := { s with seekedAttached := false }
        if s1.resolved then s1
        else if fe.seekedEnv.dims then drawAttempt id fe.seekedEnv s1
        else { s1 with retryScheduled := true }
      else s
  | .errorEvt =>
      if s.errorAttached then
        let s1 := { s with errorAttached := false }
        if s1.resolved then s1
        else s1.resolve (failedSnapshot id)
      else s
  | .innerRetry =>
      if s.retryScheduled then
        let s1 := { s with retryScheduled := false }
        if s1.resolved then s1
        else if fe.retryEnv.dims then drawAttempt id fe.retryEnv s1
        else s1.resolve (failedSnapshot id)
      else s
  | .outerTimeout =>
      if s.resolved then s
      else ({ s with seekedAttached := false,
                     errorAttached := false }).resolve (failedSnapshot id)

/-- State before any callback runs (part_002 lines 156, 238-239). -/
def initFrameState : FrameState :=
  { resolved := false
    result := none
    resolveCount := 0
    seekedAttached := true
    errorAttached := true
    retryScheduled := false }

/-- State after an immediate synchronous resolve (missing canvas ref or
2d context, part_002 lines 141-153): no listener was ever attached. -/
def resolvedFrameState (snap : Snapshot) : FrameState :=
  { resolved := true
    result := some snap
    resolveCount := 1
    seekedAttached := false
    errorAttached := false
    retryScheduled := false }

/-- Runs one extractFrame call to completion: the early missing-canvas
and missing-context paths resolve immediately; otherwise the armed
callbacks fire in trace order. -/
def runFrame (id : IdentificationResult) (fe : FrameEnv) : FrameState :=
  if fe.canvas = false then resolvedFrameState (failedSnapshot id)
  else if fe.context = false then resolvedFrameState (failedSnapshot id)
  else fe.trace.foldl (fun s e => stepFrame id fe s e) initFrameState

/-- The snapshot the extractFrame promise delivers.  The default is never
used: the run always records a result once the timeout fires. -/
def extractFrameResult (id : IdentificationResult) (fe : FrameEnv) : Snapshot :=
  ((runFrame id fe).result).getD (failedSnapshot id)

/-- The state of the shared hidden video element that the pipeline reads
and mutates (part_002 lines 269-274, 243, 357-359). -/
structure VideoElement where
  muted : Bool
  paused : Bool
  readyState : ℕ
  currentTime : ℚ
deriving DecidableEq

/-- Environment of one extractSnapshots call: a frame environment per
identification index, and whether the loadedmetadata wait (armed only
when readyState < HAVE_METADATA) fulfills rather than rejects. -/
structure ExtractEnv where
  frames : ℕ → FrameEnv
  metadataOk : Bool

/-- The sequential extraction loop (part_002 lines 339-355): one
extractFrame per identification, in order; extractFrame sets currentTime
after its canvas and context checks (line 243). -/
def extractLoop (env : ℕ → FrameEnv) :
    ℕ → VideoElement → List IdentificationResult → List Snapshot × VideoElement
  | _, v, [] => ([], v)
  | i, v, id :: rest =>
      let snap := extractFrameResult id (env i)
      let v1 := if (env i).canvas && (env i).context then
                  { v with currentTime := id.timestamp }
                else v
      let res := extractLoop env (i + 1) v1 rest
      (snap :: res.1, res.2)

/-- The video element state when the loop starts (part_002 lines
269-318): mute for seeking and pause when playing (originalPaused is read
before the pause call, and muting does not change paused); when metadata
is not yet loaded (readyState below HAVE_METADATA) and the wait rejects,
the catch handler restores the original muted and paused values — the
return inside the catch callback leaves only the callback, so execution
falls through to the loop; the canplay wait (lines 321-336) always
proceeds and changes none of the modelled state. -/
def preparedVideo (v0 : VideoElement) (env : ExtractEnv) : VideoElement :=
  let v2 := if v0.paused = false then { v0 with muted := true, paused := true }
            else { v0 with muted := true }
  if v2.readyState < 1 ∧ env.metadataOk = false then
    if v0.paused = false then { v2 with muted := v0.muted, paused := false }
    else { v2 with muted := v0.muted }
  else v2

/-- Embeds extractSnapshots (part_002 lines 259-365).  Returns the
snapshot list and the final video element state.  With a missing video
ref or an empty identification list it returns early (line 260).
Otherwise it prepares the element, runs the sequential loop, and restores
the original muted and paused values (lines 357-359). -/
def extractSnapshots (videoRefCurrent : Option VideoElement)
    (identifications : List IdentificationResult) (env : ExtractEnv) :
    List Snapshot × Option VideoElement :=
  match videoRefCurrent with
  | none => ([], none)
  | some v0 =>
      if identifications = [] then ([], some v0)
      else
        let res := extractLoop env.frames 0 (preparedVideo v0 env) identifications
        let v5 := { res.2 with muted := v0.muted }
        let v6 := if v0.paused = false then { v5 with paused := false } else v5
        (res.1, some v6)

/-! ### Helper lemmas about the extraction pipeline -/

/-- Field discipline of every snapshot an extractFrame call can deliver:
the timestamp and box of its identification, and an extracted or failed
status. -/
def snapOk (id : IdentificationResult) (snap : Snapshot) : Prop :=
  snap.timestamp = id.timestamp ∧ snap.boundingBox = id.boundingBox ∧
  (snap.generationStatus = some GenerationStatus.extracted ∨
   snap.generationStatus = some GenerationStatus.failed)

theorem snapOk_failedSnapshot (id : IdentificationResult) :
    snapOk id (failedSnapshot id) := ⟨rfl, rfl, Or.inr rfl⟩

/-- Any snapshot recorded in the state satisfies the field discipline. -/
def resultOk (id : IdentificationResult) (s : FrameState) : Prop :=
  ∀ snap, s.result = some snap → snapOk id snap

theorem resultOk_resolve {id : IdentificationResult} {s : FrameState}
    {snap : Snapshot} (hs : resultOk id s) (h : snapOk id snap) :
    resultOk id (s.resolve snap) := by
  intro r hr
  cases hres : s.result with
  | some r0 =>
      simp only [FrameState.resolve, hres] at hr
      have := hs r0 hres
      rwa [Option.some_inj.mp hr] at this
  | none =>
      simp only [FrameState.resolve, hres] at hr
      rwa [Option.some_inj.mp hr] at h

theorem resultOk_drawAttempt {id : IdentificationResult} {s : FrameState}
    (env : DrawEnv) (hs : resultOk id s) :
    resultOk id (drawAttempt id env s) := by
  cases h : encodeDataUri env with
  | some d =>
      simp only [drawAttempt, h]
      exact resultOk_resolve hs ⟨rfl, rfl, Or.inl rfl⟩
  | none =>
      simp only [drawAttempt, h]
      exact resultOk_resolve hs (snapOk_failedSnapshot id)

theorem resultOk_stepFrame {id : IdentificationResult} {s : FrameState}
    (fe : FrameEnv) (e : FrameEvent) (hs : resultOk id s) :
    resultOk id (stepFrame id fe s e) := by
  cases e <;> simp only [stepFrame] <;> split_ifs <;>
    first
      | exact hs
      | exact resultOk_drawAttempt _ hs
      | exact resultOk_resolve hs (snapOk_failedSnapshot id)

theorem resultOk_foldl {id : IdentificationResult} (fe : FrameEnv) :
    ∀ (t : List FrameEvent) (s : FrameState), resultOk id s →
      resultOk id (t.foldl (fun s e => stepFrame id fe s e) s) := by
  intro t
  induction t with
  | nil => intro s hs; exact hs
  | cons e rest ih => intro s hs; exact ih _ (resultOk_stepFrame fe e hs)

theorem resultOk_resolvedFrameState {id : IdentificationResult}
    {snap0 : Snapshot} (h : snapOk id snap0) :
    resultOk id (resolvedFrameState snap0) := by
  intro snap hsnap
  simp only [resolvedFrameState] at hsnap
  rwa [Option.some_inj.mp hsnap] at h

theorem resultOk_runFrame (id : IdentificationResult) (fe : FrameEnv) :
    resultOk id (runFrame id fe) := by
  unfold runFrame
  split_ifs
  · exact resultOk_resolvedFrameState (snapOk_failedSnapshot id)
  · exact resultOk_resolvedFrameState (snapOk_failedSnapshot id)
  · exact resultOk_foldl fe fe.trace initFrameState
      (fun snap h => by simp [initFrameState] at h)

theorem snapOk_extractFrameResult (id : IdentificationResult) (fe : FrameEnv) :
    snapOk id (extractFrameResult id fe) := by
  unfold extractFrameResult
  cases hr : (runFrame id fe).result with
  | none => simp only [hr, Option.getD_none]; exact snapOk_failedSnapshot id
  | some snap => simp only [hr, Option.getD_some]; exact resultOk_runFrame id fe snap hr

theorem extractLoop_fst_cons (env : ℕ → FrameEnv) (i : ℕ) (v : VideoElement)
    (id : IdentificationResult) (rest : List IdentificationResult) :
    (extractLoop env i v (id :: rest)).1 =
      extractFrameResult id (env i) ::
        (extractLoop env (i + 1)
          (if (env i).canvas && (env i).context then
             { v with currentTime := id.timestamp } else v) rest).1 := rfl

theorem extractLoop_snd_cons (env : ℕ → FrameEnv) (i : ℕ) (v : VideoElement)
    (id : IdentificationResult) (rest : List IdentificationResult) :
    (extractLoop env i v (id :: rest)).2 =
      (extractLoop env (i + 1)
        (if (env i).canvas && (env i).context then
           { v with currentTime := id.timestamp } else v) rest).2 := rfl

theorem extractLoop_components (env : ℕ → FrameEnv) :
    ∀ (ids : List IdentificationResult) (i : ℕ) (v : VideoElement),
      ((extractLoop env i v ids).1.map (fun s => (s.timestamp, s.boundingBox)) =
          ids.map (fun id => (id.timestamp, id.boundingBox))) ∧
      ∀ s ∈ (extractLoop env i v ids).1,
        s.generationStatus = some GenerationStatus.extracted ∨
        s.generationStatus = some GenerationStatus.failed := by
  intro ids
  induction ids with
  | nil =>
      intro i v
      exact ⟨rfl, fun s h => by simp [extractLoop] at h⟩
  | cons id rest ih =>
      intro i v
      rw [extractLoop_fst_cons]
      obtain ⟨ht, hb, hst⟩ := snapOk_extractFrameResult id (env i)
      refine ⟨?_, ?_⟩
      · simp only [List.map_cons, ht, hb]
        rw [(ih (i + 1) _).1]
      · intro s hs
        rcases List.mem_cons.mp hs with h | h
        · rw [h]; exact hst
        · exact (ih (i + 1) _).2 s h

theorem extractLoop_length (env : ℕ → FrameEnv) :
    ∀ (ids : List IdentificationResult) (i : ℕ) (v : VideoElement),
      (extractLoop env i v ids).1.length = ids.length := by
  intro ids
  induction ids with
  | nil => intro i v; rfl
  | cons id rest ih =>
      intro i v
      rw [extractLoop_fst_cons, List.length_cons, List.length_cons, ih (i + 1) _]

theorem extractLoop_getElem (env : ℕ → FrameEnv) :
    ∀ (ids : List IdentificationResult) (j i : ℕ) (v : VideoElement),
      (extractLoop env i v ids).1[j]? =
        (ids[j]?).map (fun id => extractFrameResult id (env (i + j))) := by
  intro ids
  induction ids with
  | nil => intro j i v; simp [extractLoop]
  | cons id rest ih =>
      intro j i v
      rw [extractLoop_fst_cons]
      cases j with
      | zero => simp
      | succ j0 =>
          rw [List.getElem?_cons_succ, List.getElem?_cons_succ, ih j0 (i + 1) _]
          have hn : i + 1 + j0 = i + (j0 + 1) := by omega
          rw [hn]

theorem extractLoop_muted_paused (env : ℕ → FrameEnv) :
    ∀ (ids : List IdentificationResult) (i : ℕ) (v : VideoElement),
      (extractLoop env i v ids).2.muted = v.muted ∧
      (extractLoop env i v ids).2.paused = v.paused := by
  intro ids
  induction ids with
  | nil => intro i v; exact ⟨rfl, rfl⟩
  | cons id rest ih =>
      intro i v
      rw [extractLoop_snd_cons]
      obtain ⟨h1, h2⟩ := ih (i + 1)
        (if (env i).canvas && (env i).context then
           { v with currentTime := id.timestamp } else v)
      constructor
      · rw [h1]; split_ifs <;> rfl
      · rw [h2]; split_ifs <;> rfl

theorem preparedVideo_paused_of_true {v : VideoElement} {env : ExtractEnv}
    (h : v.paused = true) : (preparedVideo v env).paused = true := by
  simp only [preparedVideo, h]
  norm_num
  split_ifs <;> simp [h]

/-- The single-resolution invariant of an extractFrame run: before the
first resolve the count is zero and no result is recorded; afterwards the
count is exactly one and a result is recorded. -/
def frameInv (s : FrameState) : Prop :=
  (s.resolved = false → s.resolveCount = 0 ∧ s.result = none) ∧
  (s.resolved = true → s.resolveCount = 1 ∧ s.result.isSome = true)

theorem frameInv_init : frameInv initFrameState :=
  ⟨fun _ => ⟨rfl, rfl⟩, fun h => by simp [initFrameState] at h⟩

theorem frameInv_resolve {s : FrameState} {snap : Snapshot}
    (h : frameInv s) (hs : s.resolved = false) :
    frameInv (s.resolve snap) := by
  obtain ⟨hc, hr⟩ := h.1 hs
  constructor
  · intro hfalse
    simp [FrameState.resolve] at hfalse
  · intro _
    exact ⟨by simp [FrameState.resolve, hc], by simp [FrameState.resolve, hr]⟩

theorem frameInv_drawAttempt {id : IdentificationResult} {s : FrameState}
    (env : DrawEnv) (h : frameInv s) (hs : s.resolved = false) :
    frameInv (drawAttempt id env s) := by
  cases he : encodeDataUri env <;> simp only [drawAttempt, he] <;>
    exact frameInv_resolve h hs

theorem frameInv_stepFrame {s : FrameState} (id : IdentificationResult)
    (fe : FrameEnv) (e : FrameEvent) (h : frameInv s) :
    frameInv (stepFrame id fe s e) := by
  cases e with
  | seeked =>
      simp only [stepFrame]
      split_ifs with h1 h2 h3
      · exact h
      · simp only [Bool.not_eq_true] at h2
        exact frameInv_drawAttempt fe.seekedEnv h h2
      · exact h
      · exact h
  | errorEvt =>
      simp only [stepFrame]
      split_ifs with h1 h2
      · exact h
      · simp only [Bool.not_eq_true] at h2
        exact frameInv_resolve h h2
      · exact h
  | innerRetry =>
      simp only [stepFrame]
      split_ifs with h1 h2 h3
      · exact h
      · simp only [Bool.not_eq_true] at h2
        exact frameInv_drawAttempt fe.retryEnv h h2
      · simp only [Bool.not_eq_true] at h2
        exact frameInv_resolve h h2
      · exact h
  | outerTimeout =>
      simp only [stepFrame]
      split_ifs with h1
      · exact h
      · simp only [Bool.not_eq_true] at h1
        exact frameInv_resolve h h1

/-- Once resolved, later callbacks change no observable resolution state:
every resolver is guarded by the resolved flag. -/
theorem stepFrame_of_resolved {s : FrameState} (id : IdentificationResult)
    (fe : FrameEnv) (e : FrameEvent) (h : s.resolved = true) :
    (stepFrame id fe s e).resolved = true ∧
    (stepFrame id fe s e).resolveCount = s.resolveCount ∧
    (stepFrame id fe s e).result = s.result := by
  cases e <;> simp only [stepFrame] <;> split_ifs <;> exact ⟨h, rfl, rfl⟩

theorem foldl_stepFrame_frozen (id : IdentificationResult) (fe : FrameEnv) :
    ∀ (t : List FrameEvent) (s : FrameState), s.resolved = true →
      (t.foldl (fun s e => stepFrame id fe s e) s).resolved = true ∧
      (t.foldl (fun s e => stepFrame id fe s e) s).resolveCount = s.resolveCount ∧
      (t.foldl (fun s e => stepFrame id fe s e) s).result = s.result := by
  intro t
  induction t with
  | nil => intro s h; exact ⟨h, rfl, rfl⟩
  | cons e rest ih =>
      intro s h
      rw [List.foldl_cons]
      obtain ⟨h1, h2, h3⟩ := stepFrame_of_resolved id fe e h
      obtain ⟨g1, g2, g3⟩ := ih _ h1
      exact ⟨g1, by rw [g2, h2], by rw [g3, h3]⟩

/-- The timeout callback always leaves the state resolved. -/
theorem stepFrame_outerTimeout_resolved (id : IdentificationResult)
    (fe : FrameEnv) (s : FrameState) :
    (stepFrame id fe s FrameEvent.outerTimeout).resolved = true := by
  simp only [stepFrame]
  split_ifs with h
  · exact h
  · rfl

theorem foldl_stepFrame_resolves (id : IdentificationResult) (fe : FrameEnv) :
    ∀ (t : List FrameEvent) (s : FrameState), frameInv s →
      FrameEvent.outerTimeout ∈ t →
      (t.foldl (fun s e => stepFrame id fe s e) s).resolveCount = 1 ∧
      ((t.foldl (fun s e => stepFrame id fe s e) s).result).isSome = true := by
  intro t
  induction t with
  | nil => intro s _ hmem; simp at hmem
  | cons e rest ih =>
      intro s hinv hmem
      rw [List.foldl_cons]
      have hinv' := frameInv_stepFrame id fe e hinv
      by_cases hres : (stepFrame id fe s e).resolved = true
      · obtain ⟨hc, hr⟩ := hinv'.2 hres
        obtain ⟨g1, g2, g3⟩ := foldl_stepFrame_frozen id fe rest _ hres
        exact ⟨by rw [g2, hc], by rw [g3]; exact hr⟩
      · have hmem' : FrameEvent.outerTimeout ∈ rest := by
          rcases List.mem_cons.mp hmem with he | hr
          · exfalso
            rw [← he] at hres
            exact hres (stepFrame_outerTimeout_resolved id fe s)
          · exact hr
        exact ih _ hinv' hmem'

/-- C10: extractFrame is total and single-shot.  On every code path
(missing canvas ref, missing 2d context, or any order of the armed
callbacks in which the 3-second timeout eventually fires) the run calls
its resolver exactly once and records the delivered snapshot, so the
promise resolves with some snapshot, never rejects, and the catch branch
of the extraction loop is unreachable. -/
theorem extractFrame_resolves_exactly_once (id : IdentificationResult)
    (fe : FrameEnv) (h : FrameEvent.outerTimeout ∈ fe.trace) :
    (runFrame id fe).resolveCount = 1 ∧
    (runFrame id fe).result = some (extractFrameResult id fe) := by
  have hmain : (runFrame id fe).resolveCount = 1 ∧
      ((runFrame id fe).result).isSome = true := by
    unfold runFrame
    split_ifs
    · exact ⟨rfl, rfl⟩
    · exact ⟨rfl, rfl⟩
    · exact foldl_stepFrame_resolves id fe fe.trace initFrameState frameInv_init h
  refine ⟨hmain.1, ?_⟩
  obtain ⟨snap, hsnap⟩ := Option.isSome_iff_exists.mp hmain.2
  rw [hsnap]
  unfold extractFrameResult
  rw [hsnap]
  simp only [Option.getD_some]

/-- Sample fixtures used to instantiate the pipeline claim theorems. -/
def sampleId : IdentificationResult := { timestamp := 0, boundingBox := none }

def sampleDrawEnv : DrawEnv :=
  { dims := true
    jpeg := some "data:image/jpeg;base64,AAAA"
    png := some "data:image/png;base64,AAAA" }

def sampleFrameEnv : FrameEnv :=
  { canvas := true
    context := true
    seekedEnv := sampleDrawEnv
    retryEnv := sampleDrawEnv
    trace := [FrameEvent.seeked, FrameEvent.outerTimeout] }

def sampleExtractEnv : ExtractEnv :=
  { frames := fun _ => sampleFrameEnv, metadataOk := true }

def sampleVideo : VideoElement :=
  { muted := false, paused := true, readyState := 4, currentTime := 0 }

theorem extractFrame_resolves_exactly_once_witness :
    (runFrame sampleId sampleFrameEnv).resolveCount = 1 ∧
    (runFrame sampleId sampleFrameEnv).result =
      some (extractFrameResult sampleId sampleFrameEnv) :=
  extractFrame_resolves_exactly_once sampleId sampleFrameEnv
    (by simp [sampleFrameEnv])

theorem extractSnapshots_fst (v : VideoElement)
    (ids : List IdentificationResult) (env : ExtractEnv) (h : ids ≠ []) :
    (extractSnapshots (some v) ids env).1 =
      (extractLoop env.frames 0 (preparedVideo v env) ids).1 := by
  simp only [extractSnapshots, if_neg h]

/-- C2 counterexample: with the video element ref missing, the pipeline
returns no snapshots even for a nonempty identification list, so it does
not return one snapshot per identification. -/
theorem extractSnapshots_missing_ref_counterexample :
    (extractSnapshots none [sampleId] sampleExtractEnv).1.length = 0 ∧
    ([sampleId] : List IdentificationResult).length = 1 := ⟨rfl, rfl⟩

/-- C2 amended: when the video element ref is present, extractSnapshots
returns exactly one snapshot per input identification, in input order,
each preserving its identification timestamp and carried bounding box,
each with status extracted or failed; when the ref is missing it returns
the empty list. -/
theorem extractSnapshots_complete (v : VideoElement)
    (ids : List IdentificationResult) (env : ExtractEnv) :
    (extractSnapshots (some v) ids env).1.length = ids.length ∧
    (extractSnapshots (some v) ids env).1.map
        (fun s => (s.timestamp, s.boundingBox)) =
      ids.map (fun id => (id.timestamp, id.boundingBox)) ∧
    ∀ s ∈ (extractSnapshots (some v) ids env).1,
      s.generationStatus = some GenerationStatus.extracted ∨
      s.generationStatus = some GenerationStatus.failed := by
  by_cases h : ids = []
  · subst h
    refine ⟨rfl, rfl, ?_⟩
    intro s hs
    simp [extractSnapshots] at hs
  · rw [extractSnapshots_fst v ids env h]
    obtain ⟨h1, h2⟩ := extractLoop_components env.frames ids 0 (preparedVideo v env)
    exact ⟨extractLoop_length env.frames ids 0 _, h1, h2⟩

theorem extractSnapshots_complete_witness :
    (extractSnapshots (some sampleVideo) [sampleId] sampleExtractEnv).1.length =
      ([sampleId] : List IdentificationResult).length :=
  (extractSnapshots_complete sampleVideo [sampleId] sampleExtractEnv).1

/-- The concrete failure modes of one frame capture named by the
specification: missing canvas ref, missing 2d context, seek timeout (the
3s timeout fires before any seeked or error event), seek error event,
canvas encode throw on a successful seek, and dimensions still missing
after the retry delay. -/
def frameFailureEnv (fe : FrameEnv) : Prop :=
  fe.canvas = false ∨ fe.context = false ∨
  fe.trace = [FrameEvent.outerTimeout] ∨
  fe.trace = [FrameEvent.errorEvt, FrameEvent.outerTimeout] ∨
  (fe.trace = [FrameEvent.seeked, FrameEvent.outerTimeout] ∧
    fe.seekedEnv.dims = true ∧ fe.seekedEnv.jpeg = none) ∨
  (fe.trace = [FrameEvent.seeked, FrameEvent.innerRetry, FrameEvent.outerTimeout] ∧
    fe.seekedEnv.dims = false ∧ fe.retryEnv.dims = false)

theorem extractFrameResult_of_failure (id : IdentificationResult)
    (fe : FrameEnv) (h : frameFailureEnv fe) :
    extractFrameResult id fe = failedSnapshot id := by
  by_cases hc : fe.canvas = false
  · simp [extractFrameResult, runFrame, hc, resolvedFrameState]
  by_cases hx : fe.context = false
  · simp [extractFrameResult, runFrame, hc, hx, resolvedFrameState]
  have hrun : runFrame id fe =
      fe.trace.foldl (fun s e => stepFrame id fe s e) initFrameState := by
    simp [runFrame, hc, hx]
  rcases h with h | h | h | h | ⟨h, hd, hj⟩ | ⟨h, hd1, hd2⟩
  · exact absurd h hc
  · exact absurd h hx
  · unfold extractFrameResult
    rw [hrun, h]
    simp [stepFrame, initFrameState, FrameState.resolve]
  · unfold extractFrameResult
    rw [hrun, h]
    simp [stepFrame, initFrameState, FrameState.resolve]
  · unfold extractFrameResult
    rw [hrun, h]
    simp [stepFrame, initFrameState, FrameState.resolve, drawAttempt,
      encodeDataUri, hd, hj]
  · unfold extractFrameResult
    rw [hrun, h]
    simp [stepFrame, initFrameState, FrameState.resolve, hd1, hd2]

/-- C7: a per-identification capture failure is local.  Whenever the
frame environment of index i is one of the named failure modes, the
snapshot at position i is the failed snapshot carrying that
identification timestamp, box, and the designated placeholder image, and
the batch still yields one snapshot per identification. -/
theorem extractSnapshots_failure_local (v : VideoElement)
    (ids : List IdentificationResult) (env : ExtractEnv) (i : ℕ)
    (id : IdentificationResult) (hid : ids[i]? = some id)
    (hfail : frameFailureEnv (env.frames i)) :
    (extractSnapshots (some v) ids env).1[i]? = some (failedSnapshot id) ∧
    (extractSnapshots (some v) ids env).1.length = ids.length := by
  have hne : ids ≠ [] := by
    intro hnil
    rw [hnil] at hid
    simp at hid
  rw [extractSnapshots_fst v ids env hne]
  constructor
  · rw [extractLoop_getElem env.frames ids i 0 _, hid]
    simp only [Option.map_some']
    rw [Nat.zero_add, extractFrameResult_of_failure id _ hfail]
  · exact extractLoop_length env.frames ids 0 _

/-- A frame environment in which the seeked event never fires and the
3-second timeout resolves the frame as failed. -/
def failFrameEnv : FrameEnv :=
  { canvas := true
    context := true
    seekedEnv := sampleDrawEnv
    retryEnv := sampleDrawEnv
    trace := [FrameEvent.outerTimeout] }

def failExtractEnv : ExtractEnv :=
  { frames := fun _ => failFrameEnv, metadataOk := true }

theorem extractSnapshots_failure_local_witness :
    (extractSnapshots (some sampleVideo) [sampleId] failExtractEnv).1[0]? =
        some (failedSnapshot sampleId) ∧
    (extractSnapshots (some sampleVideo) [sampleId] failExtractEnv).1.length =
        ([sampleId] : List IdentificationResult).length :=
  extractSnapshots_failure_local sampleVideo [sampleId] failExtractEnv 0
    sampleId rfl (Or.inr (Or.inr (Or.inl rfl)))

/-- C8: frame condition on the shared video element: after the batch
completes, the muted and paused fields of the video element equal their
values from before the batch, on every path (missing ref, empty batch,
metadata-wait rejection, any mix of per-frame outcomes). -/
theorem extractSnapshots_restores_video_state (ref : Option VideoElement)
    (ids : List IdentificationResult) (env : ExtractEnv) :
    ((extractSnapshots ref ids env).2).map VideoElement.muted =
      ref.map VideoElement.muted ∧
    ((extractSnapshots ref ids env).2).map VideoElement.paused =
      ref.map VideoElement.paused := by
  cases ref with
  | none => exact ⟨rfl, rfl⟩
  | some v =>
      by_cases h : ids = []
      · rw [h]; exact ⟨rfl, rfl⟩
      · obtain ⟨hm, hp⟩ :=
          extractLoop_muted_paused env.frames ids 0 (preparedVideo v env)
        simp only [extractSnapshots, if_neg h, Option.map_some']
        constructor
        · split_ifs <;> rfl
        · split_ifs with hpf
          · rw [hpf]
          · have hv : v.paused = true := by
              revert hpf
              cases v.paused <;> simp
            show some ((extractLoop env.frames 0 (preparedVideo v env) ids).2.paused)
              = some v.paused
            rw [hp, preparedVideo_paused_of_true hv, hv]

end ReId
